import Mathlib

/-!
Verification of the MathJax `CommonHtmlNodeMixin` (HDW-caching wrapper for
embedded HTML nodes) and the `HTMLHandler` / MML node-class registry, as a
shallow embedding of the TypeScript source.

The embedding models JavaScript values explicitly: a JS number that may also
be `undefined` or `NaN` is `JSNum`; a style object (`StyleList`) is an
association list with JS-object update semantics (set replaces in place,
new keys append); the DOM tree handled by the adaptor is the pure tree
`Html`.  Helper functions of the wrapper base class that are outside this
source slice (`length2em`, `em`, `fixed`, `measureXMLnode`) are fields of a
context record `MixinCtx`, so every theorem is parametric in them.
-/

/-- A JavaScript numeric value as it flows through the mixin: a real number,
`NaN`, or `undefined` (the value of a missing array destructuring slot). -/
inductive JSNum : Type where
  | num (q : ℚ)
  | nan
  | undef
  deriving DecidableEq, Repr

/-- JavaScript `+` on possibly-undefined numbers: `undefined` or `NaN` on
either side yields `NaN`. -/
def jsAdd : JSNum → JSNum → JSNum
  | JSNum.num a, JSNum.num b => JSNum.num (a + b)
  | _, _ => JSNum.nan

/-- JavaScript unary `-` on a possibly-undefined number: `-undefined` and
`-NaN` are `NaN`. -/
def jsNeg : JSNum → JSNum
  | JSNum.num a => JSNum.num (-a)
  | _ => JSNum.nan

/-- A style object (`StyleList` in the source): key/value pairs in insertion
order. -/
abbrev StyleList := List (String × String)

/-- JS-object property write: replace the value at an existing key in place,
otherwise append the new binding at the end. -/
def setStyle : StyleList → String → String → StyleList
  | [], k, v => [(k, v)]
  | (k0, v0) :: rest, k, v =>
    if k0 = k then (k, v) :: rest else (k0, v0) :: setStyle rest k v

/-- JS-object property read: the value at the first binding of the key. -/
def lookupStyle : StyleList → String → Option String
  | [], _ => none
  | (k0, v0) :: rest, k => if k0 = k then some v0 else lookupStyle rest k

/-- The properties argument of the `html` DOM-builder helper as used by this
mixin: an optional `variant` and a `style` object. -/
structure ElementProps where
  variant : Option String := none
  style : StyleList := []
  deriving Repr, DecidableEq

/-- The DOM tree manipulated through the adaptor: an element with a node
kind, builder properties, plain attributes and children, or a text node. -/
inductive Html : Type where
  | element (kind : String) (props : ElementProps) (attrs : List (String × String)) (children : List Html)
  | text (s : String)

mutual

/-- Decidable equality of DOM trees (the automatic deriving does not handle
the nested `List Html`). -/
def Html.deq : (a b : Html) → Decidable (a = b)
  | Html.element k1 p1 a1 c1, Html.element k2 p2 a2 c2 =>
    match decEq k1 k2, decEq p1 p2, decEq a1 a2, Html.deqList c1 c2 with
    | isTrue h1, isTrue h2, isTrue h3, isTrue h4 => isTrue (by rw [h1, h2, h3, h4])
    | isFalse h1, _, _, _ => isFalse (by intro he; cases he; exact h1 rfl)
    | _, isFalse h2, _, _ => isFalse (by intro he; cases he; exact h2 rfl)
    | _, _, isFalse h3, _ => isFalse (by intro he; cases he; exact h3 rfl)
    | _, _, _, isFalse h4 => isFalse (by intro he; cases he; exact h4 rfl)
  | Html.element _ _ _ _, Html.text _ => isFalse (by intro h; cases h)
  | Html.text _, Html.element _ _ _ _ => isFalse (by intro h; cases h)
  | Html.text s1, Html.text s2 =>
    match decEq s1 s2 with
    | isTrue h => isTrue (by rw [h])
    | isFalse h => isFalse (by intro he; cases he; exact h rfl)

/-- Decidable equality of lists of DOM trees. -/
def Html.deqList : (a b : List Html) → Decidable (a = b)
  | [], [] => isTrue rfl
  | [], _ :: _ => isFalse (by intro h; cases h)
  | _ :: _, [] => isFalse (by intro h; cases h)
  | a :: as, b :: bs =>
    match Html.deq a b, Html.deqList as bs with
    | isTrue h1, isTrue h2 => isTrue (by rw [h1, h2])
    | isFalse h1, _ => isFalse (by intro he; cases he; exact h1 rfl)
    | _, isFalse h2 => isFalse (by intro he; cases he; exact h2 rfl)

end

instance : DecidableEq Html := Html.deq

/-- The adaptor's `getAttribute`: the attribute's value, or `null` (`none`)
when the node has no such attribute (text nodes have none). -/
def getAttribute : Html → String → Option String
  | Html.element _ _ attrs _, name => attrs.lookup name
  | Html.text _, _ => none

/-- The node kind of a tree (empty for text nodes). -/
def Html.kindOf : Html → String
  | Html.element k _ _ _ => k
  | Html.text _ => ""

/-- The style object of a tree's builder properties. -/
def Html.styleOf : Html → StyleList
  | Html.element _ p _ _ => p.style
  | Html.text _ => []

mutual

/-- The adaptor's `clone`: a deep copy of the tree. -/
def clone : Html → Html
  | Html.element k p a cs => Html.element k p a (cloneList cs)
  | Html.text s => Html.text s

/-- Deep copy of a list of child trees. -/
def cloneList : List Html → List Html
  | [] => []
  | c :: cs => clone c :: cloneList cs

end

/-- The `UnknownBBox` record `{h, d, w}` produced by `splitHDW` (components
may be `undefined` when the attribute has fewer than three fields). -/
structure UnknownBBox where
  h : JSNum
  d : JSNum
  w : JSNum
  deriving DecidableEq, Repr

/-- Component access of an `UnknownBBox` by position: 0 is `h`, 1 is `d`,
2 is `w`. -/
def UnknownBBox.nth (b : UnknownBBox) : ℕ → JSNum
  | 0 => b.h
  | 1 => b.d
  | 2 => b.w
  | _ => JSNum.undef

/-- The bounding box mutated by `computeBBox` (only the `h`, `d`, `w` fields
are touched by this mixin). -/
structure BBox where
  h : JSNum
  d : JSNum
  w : JSNum
  deriving DecidableEq, Repr

/-- The `{h, d, w}` record returned by `jax.measureXMLnode`: actual measured
numbers. -/
structure Measured where
  h : ℚ
  d : ℚ
  w : ℚ

/-- Drop leading whitespace characters. -/
def dropWS : List Char → List Char
  | [] => []
  | c :: cs => if c.isWhitespace then dropWS cs else c :: cs

/-- Trim whitespace from both ends of a character list. -/
def trimChars (l : List Char) : List Char :=
  (dropWS (dropWS l).reverse).reverse

/-- Cut a character list at every whitespace character, accumulating the
current component in reverse. -/
def splitOnWS : List Char → List Char → List String
  | [], acc => [String.mk acc.reverse]
  | c :: cs, acc =>
    if c.isWhitespace then String.mk acc.reverse :: splitOnWS cs []
    else splitOnWS cs (c :: acc)

/-- Modelled from the spec: `split` from `util/string.js` (not part of this
source slice) divides a string into its whitespace-separated components
(`x.trim().split(/\s+/)`); on an empty or all-whitespace string, JavaScript
yields the one-element array `['']`. -/
def split (x : String) : List String :=
  let t := trimChars x.data
  if t = [] then [""]
  else (splitOnWS t []).filter (fun s => s ≠ "")

/-- The jax/wrapper context the mixin methods read: the `htmlHDW` option and
the base-class helpers that live outside this source slice. -/
structure MixinCtx where
  htmlHDW : String
  length2em : String → JSNum
  em : JSNum → String
  fixed : ℚ → ℕ → String
  measure : Html → Measured
  scale : ℚ
  metricsFamily : String
  parentStylesFontFamily : Option String
  adaptorParentFontFamily : String
  parentVariant : String

/-- The wrapper's own state: the `HtmlNode`'s stored HTML tree and the cache
fields the base class's `getStyles` / `getScale` / `getVariant` would fill. -/
structure WrapperState where
  storedHTML : Html
  stylesCache : Option StyleList := none
  scaleCache : Option ℚ := none
  variantCache : Option String := none

/-- `getHDW(html, use, force)`: the `data-mjx-hdw` attribute value if it is
truthy (present and non-empty) and the `htmlHDW` option equals `use` or
`force`; otherwise `null`. -/
def getHDW (ctx : MixinCtx) (html : Html) (use force : String) : Option String :=
  match getAttribute html "data-mjx-hdw" with
  | none => none
  | some hdw =>
    if hdw ≠ "" ∧ (ctx.htmlHDW = use ∨ ctx.htmlHDW = force) then some hdw else none

/-- JavaScript `x || '0'` on a string component: an empty component becomes
the string `'0'`. -/
def zeroIfEmpty (x : String) : String :=
  if x = "" then "0" else x

/-- `splitHDW(hdw)`: split the attribute on whitespace, convert each present
component with `length2em` (empty components as `'0'`), and destructure the
first three positions into `{h, d, w}`; positions beyond the array's length
destructure to `undefined`. -/
def splitHDW (ctx : MixinCtx) (hdw : String) : UnknownBBox :=
  let vals := (split hdw).map (fun x => ctx.length2em (zeroIfEmpty x))
  { h := vals.getD 0 JSNum.undef
    d := vals.getD 1 JSNum.undef
    w := vals.getD 2 JSNum.undef }

/-- `addHDW(html, styles)`: when `htmlHDW` is `'force'` and the tree carries
a truthy `data-mjx-hdw` attribute, record the advertised size in the styles
object and wrap the tree in an `mjx-html-holder` element; otherwise return
both arguments untouched. -/
def addHDW (ctx : MixinCtx) (html : Html) (styles : StyleList) : Html × StyleList :=
  match getHDW ctx html "force" "force" with
  | none => (html, styles)
  | some hdw =>
    let b := splitHDW ctx hdw
    let styles := setStyle styles "height" (ctx.em (jsAdd b.h b.d))
    let styles := setStyle styles "width" (ctx.em b.w)
    let styles := setStyle styles "vertical-align" (ctx.em (jsNeg b.d))
    let styles := setStyle styles "position" "relative"
    (Html.element "mjx-html-holder" {} [] [html], styles)

/-- JavaScript `a || b` for a possibly-undefined string: `b` when `a` is
`undefined` or empty. -/
def jsOrS (a : Option String) (b : String) : String :=
  match a with
  | none => b
  | some s => if s = "" then b else s

/-- The `font-family` fallback chain of `getHTML`: the parent wrapper's
explicit style, then the metrics family, then the adaptor's computed family
of the math's parent node, then `'initial'`. -/
def fontFamilyValue (ctx : MixinCtx) : String :=
  jsOrS ctx.parentStylesFontFamily
    (jsOrS (some ctx.metricsFamily) (jsOrS (some ctx.adaptorParentFontFamily) "initial"))

/-- `getHTML()`: clone the stored HTML, apply `addHDW` to a fresh styles
object, add a `font-size` style when the metrics scale differs from 1, set
the `font-family` style, and wrap everything in an `mjx-html` element.  The
wrapper state is threaded to make explicit that the stored tree is not
written. -/
def getHTML (ctx : MixinCtx) (st : WrapperState) : Html × WrapperState :=
  let r := addHDW ctx (clone st.storedHTML) []
  let styles1 :=
    if ctx.scale ≠ 1 then setStyle r.2 "font-size" (ctx.fixed (100 / ctx.scale) 1 ++ "%")
    else r.2
  let styles2 := setStyle styles1 "font-family" (fontFamilyValue ctx)
  (Html.element "mjx-html" { variant := some ctx.parentVariant, style := styles2 } [] [r.1], st)

/-- `computeBBox(bbox)`: when `getHDW` accepts the stored tree's cached
`data-mjx-hdw` value under options `'use'`/`'force'`, take `h`, `d`, `w`
from `splitHDW`; otherwise measure `getHTML()` with `measureXMLnode`. -/
def computeBBox (ctx : MixinCtx) (st : WrapperState) (bbox : BBox) : BBox :=
  match getHDW ctx st.storedHTML "use" "force" with
  | some hdw =>
    let b := splitHDW ctx hdw
    { bbox with w := b.w, h := b.h, d := b.d }
  | none =>
    let m := ctx.measure (getHTML ctx st).1
    { bbox with w := JSNum.num m.w, h := JSNum.num m.h, d := JSNum.num m.d }

/-- The mixin's override of the base class's `getStyles`: an empty body,
returning `undefined` and writing nothing. -/
def getStyles (self : WrapperState) : Option Unit × WrapperState := (none, self)

/-- The mixin's override of the base class's `getScale`: an empty body,
returning `undefined` and writing nothing. -/
def getScale (self : WrapperState) : Option Unit × WrapperState := (none, self)

/-- The mixin's override of the base class's `getVariant`: an empty body,
returning `undefined` and writing nothing. -/
def getVariant (self : WrapperState) : Option Unit × WrapperState := (none, self)

/-- The Mml node-construction classes named in the `MML` registry literal of
the tree-builder module, in the literal's order.  `MmlAnnotationEl` stands
for the source's `MmlAnnotation` class (renamed here). -/
inductive MmlNodeClass : Type where
  | MmlMath
  | MmlMi
  | MmlMn
  | MmlMo
  | MmlMtext
  | MmlMspace
  | MmlMs
  | MmlMrow
  | MmlInferredMrow
  | MmlMfrac
  | MmlMsqrt
  | MmlMroot
  | MmlMstyle
  | MmlMerror
  | MmlMpadded
  | MmlMphantom
  | MmlMfenced
  | MmlMenclose
  | MmlMaction
  | MmlMsub
  | MmlMsup
  | MmlMsubsup
  | MmlMunder
  | MmlMover
  | MmlMunderover
  | MmlMmultiscripts
  | MmlMprescripts
  | MmlNone
  | MmlMtable
  | MmlMlabeledtr
  | MmlMtr
  | MmlMtd
  | MmlMaligngroup
  | MmlMalignmark
  | MmlSemantics
  | MmlAnnotationEl
  | MmlAnnotationXML
  | TeXAtom
  | TextNode
  | XMLNode
  deriving DecidableEq, Repr

/-- Modelled from the spec: each class's `prototype.kind`, the MathML
element kind it constructs (defined in `core/MmlTree/MmlNodes/*`, outside
this source slice; the spec names the kinds `mi`, `mo`, `mfrac`, `mtable`,
etc.). -/
def MmlNodeClass.kind : MmlNodeClass → String
  | MmlMath => "math"
  | MmlMi => "mi"
  | MmlMn => "mn"
  | MmlMo => "mo"
  | MmlMtext => "mtext"
  | MmlMspace => "mspace"
  | MmlMs => "ms"
  | MmlMrow => "mrow"
  | MmlInferredMrow => "inferredMrow"
  | MmlMfrac => "mfrac"
  | MmlMsqrt => "msqrt"
  | MmlMroot => "mroot"
  | MmlMstyle => "mstyle"
  | MmlMerror => "merror"
  | MmlMpadded => "mpadded"
  | MmlMphantom => "mphantom"
  | MmlMfenced => "mfenced"
  | MmlMenclose => "menclose"
  | MmlMaction => "maction"
  | MmlMsub => "msub"
  | MmlMsup => "msup"
  | MmlMsubsup => "msubsup"
  | MmlMunder => "munder"
  | MmlMover => "mover"
  | MmlMunderover => "munderover"
  | MmlMmultiscripts => "mmultiscripts"
  | MmlMprescripts => "mprescripts"
  | MmlNone => "none"
  | MmlMtable => "mtable"
  | MmlMlabeledtr => "mlabeledtr"
  | MmlMtr => "mtr"
  | MmlMtd => "mtd"
  | MmlMaligngroup => "maligngroup"
  | MmlMalignmark => "malignmark"
  | MmlSemantics => "semantics"
  | MmlAnnotationEl => "annotation"
  | MmlAnnotationXML => "annotation-xml"
  | TeXAtom => "TeXAtom"
  | TextNode => "text"
  | XMLNode => "XML"

/-- The classes of the `MML` object literal in source order. -/
def registryClasses : List MmlNodeClass :=
  [MmlNodeClass.MmlMath,
   MmlNodeClass.MmlMi, MmlNodeClass.MmlMn, MmlNodeClass.MmlMo,
   MmlNodeClass.MmlMtext, MmlNodeClass.MmlMspace, MmlNodeClass.MmlMs,
   MmlNodeClass.MmlMrow, MmlNodeClass.MmlInferredMrow, MmlNodeClass.MmlMfrac,
   MmlNodeClass.MmlMsqrt, MmlNodeClass.MmlMroot, MmlNodeClass.MmlMstyle,
   MmlNodeClass.MmlMerror, MmlNodeClass.MmlMpadded, MmlNodeClass.MmlMphantom,
   MmlNodeClass.MmlMfenced, MmlNodeClass.MmlMenclose,
   MmlNodeClass.MmlMaction,
   MmlNodeClass.MmlMsub, MmlNodeClass.MmlMsup, MmlNodeClass.MmlMsubsup,
   MmlNodeClass.MmlMunder, MmlNodeClass.MmlMover, MmlNodeClass.MmlMunderover,
   MmlNodeClass.MmlMmultiscripts, MmlNodeClass.MmlMprescripts, MmlNodeClass.MmlNone,
   MmlNodeClass.MmlMtable, MmlNodeClass.MmlMlabeledtr, MmlNodeClass.MmlMtr,
   MmlNodeClass.MmlMtd, MmlNodeClass.MmlMaligngroup, MmlNodeClass.MmlMalignmark,
   MmlNodeClass.MmlSemantics, MmlNodeClass.MmlAnnotationEl, MmlNodeClass.MmlAnnotationXML,
   MmlNodeClass.TeXAtom,
   MmlNodeClass.TextNode, MmlNodeClass.XMLNode]

/-- The `MML` registry: the object literal `{[C.prototype.kind]: C, ...}`
as key/class pairs in source order. -/
def MML : List (String × MmlNodeClass) :=
  registryClasses.map (fun c => (c.kind, c))

/-- JS-object property read on the registry (all keys are distinct, so the
first binding is the object's binding). -/
def lookupClass : List (String × MmlNodeClass) → String → Option MmlNodeClass
  | [], _ => none
  | (k0, c0) :: rest, k => if k0 = k then some c0 else lookupClass rest k

/-- A value examined by `HandlesDocument`: DOM documents, HTML elements,
document fragments, strings, or anything else. -/
inductive DomValue : Type where
  | document
  | htmlElement
  | fragment
  | str (s : String)
  | other
  deriving DecidableEq, Repr

/-- Modelled from the spec: `x instanceof DOCUMENT`, the check against the
document constructor from `util/document.js` (outside this source slice). -/
def isDocumentInstance : DomValue → Bool
  | DomValue.document => true
  | _ => false

/-- Modelled from the spec: `x instanceof HTMLElement`. -/
def isHTMLElementInstance : DomValue → Bool
  | DomValue.htmlElement => true
  | _ => false

/-- Modelled from the spec: `x instanceof DocumentFragment`. -/
def isFragmentInstance : DomValue → Bool
  | DomValue.fragment => true
  | _ => false

/-- `HTMLHandler.HandlesDocument`: strings are first run through
`parser.parseFromString` (a parse failure is caught and leaves the value as
the original string); the result is accepted exactly when it is an instance
of the document constructor, of `HTMLElement`, or of `DocumentFragment`.
The parser (from `util/document.js`, outside this slice) is a parameter;
`parse s = none` models a thrown parse error. -/
def HandlesDocument (parse : String → Option DomValue) (doc : DomValue) : Bool :=
  let d :=
    match doc with
    | DomValue.str s =>
      match parse s with
      | some r => r
      | none => DomValue.str s
    | v => v
  isDocumentInstance d || isHTMLElementInstance d || isFragmentInstance d

/-- A concrete `length2em` for evaluating the embedding on sample inputs:
small decimal numerals to their values, everything else `NaN`. -/
def demoLength2em (s : String) : JSNum :=
  if s = "0" then JSNum.num 0
  else if s = "1" then JSNum.num 1
  else if s = "2" then JSNum.num 2
  else if s = "3" then JSNum.num 3
  else JSNum.nan

/-- A concrete `em` for evaluating the embedding on sample inputs; it only
inspects the kind of its argument. -/
def demoEm : JSNum → String
  | JSNum.num _ => "Nem"
  | JSNum.nan => "NaNem"
  | JSNum.undef => "undefem"

/-- A sample jax/wrapper context with `htmlHDW := 'force'`. -/
def ctxDemo : MixinCtx :=
  { htmlHDW := "force"
    length2em := demoLength2em
    em := demoEm
    fixed := fun _ _ => "100"
    measure := fun _ => { h := 5, d := 6, w := 7 }
    scale := 1
    metricsFamily := ""
    parentStylesFontFamily := none
    adaptorParentFontFamily := ""
    parentVariant := "normal" }

/-- A sample jax/wrapper context with `htmlHDW := 'use'`. -/
def ctxUse : MixinCtx :=
  { ctxDemo with htmlHDW := "use" }

/-- A sample HTML tree carrying a cached `data-mjx-hdw` attribute. -/
def htmlDemo : Html :=
  Html.element "span" {} [("data-mjx-hdw", "1 2 3")] [Html.text "x"]

/-- A sample wrapper state holding `htmlDemo`. -/
def stDemo : WrapperState :=
  { storedHTML := htmlDemo }

/-- A sample bounding box. -/
def bboxDemo : BBox :=
  { h := JSNum.nan, d := JSNum.nan, w := JSNum.nan }

/-- A sample parser accepting exactly one string. -/
def parseDemo : String → Option DomValue :=
  fun s => if s = "<p>" then some DomValue.document else none

/-! ## Helper lemmas -/

theorem lookupStyle_setStyle_self (s : StyleList) (k v : String) :
    lookupStyle (setStyle s k v) k = some v := by
  induction s with
  | nil => simp [setStyle, lookupStyle]
  | cons p rest ih =>
    obtain ⟨k0, v0⟩ := p
    by_cases h : k0 = k <;> simp [setStyle, lookupStyle, h, ih]

theorem lookupStyle_setStyle_ne (s : StyleList) (k1 k2 v : String) (h : k1 ≠ k2) :
    lookupStyle (setStyle s k1 v) k2 = lookupStyle s k2 := by
  induction s with
  | nil => simp [setStyle, lookupStyle, h]
  | cons p rest ih =>
    obtain ⟨k0, v0⟩ := p
    by_cases h0 : k0 = k1
    · subst h0
      simp [setStyle, lookupStyle, h]
    · simp [setStyle, lookupStyle, h0, ih]

theorem getHDW_some_of (ctx : MixinCtx) (html : Html) (u f v : String)
    (hattr : getAttribute html "data-mjx-hdw" = some v) (hv : v ≠ "")
    (hopt : ctx.htmlHDW = u ∨ ctx.htmlHDW = f) :
    getHDW ctx html u f = some v := by
  unfold getHDW
  rw [hattr]
  simp [hv, hopt]

theorem getHDW_none_of (ctx : MixinCtx) (html : Html) (u f : String)
    (h : getAttribute html "data-mjx-hdw" = none ∨
         getAttribute html "data-mjx-hdw" = some "" ∨
         (ctx.htmlHDW ≠ u ∧ ctx.htmlHDW ≠ f)) :
    getHDW ctx html u f = none := by
  unfold getHDW
  rcases h with h | h | h
  · rw [h]
  · rw [h]; simp
  · cases hA : getAttribute html "data-mjx-hdw" with
    | none => rfl
    | some a => simp [h.1, h.2]

theorem getD_map_lt (f : String → JSNum) (l : List String) :
    ∀ i : ℕ, i < l.length →
      (l.map f).getD i JSNum.undef = f (l.getD i "") := by
  induction l with
  | nil => intro i h; simp at h
  | cons a t ih =>
    intro i h
    cases i with
    | zero => simp
    | succ n => simpa using ih n (by simpa using h)

theorem getD_map_ge (f : String → JSNum) (l : List String) :
    ∀ i : ℕ, l.length ≤ i →
      (l.map f).getD i JSNum.undef = JSNum.undef := by
  induction l with
  | nil => intro i _; cases i <;> simp [List.getD]
  | cons a t ih =>
    intro i h
    cases i with
    | zero => simp at h
    | succ n => simpa using ih n (by simpa using h)

mutual

theorem clone_eq : ∀ h : Html, clone h = h
  | Html.element k p a cs => by rw [clone, cloneList_eq cs]
  | Html.text s => by rw [clone]

theorem cloneList_eq : ∀ l : List Html, cloneList l = l
  | [] => by rw [cloneList]
  | c :: cs => by rw [cloneList, clone_eq c, cloneList_eq cs]

end

theorem lookupStyle_addHDW_fresh (ctx : MixinCtx) (html : Html) (k : String)
    (hk1 : k ≠ "height") (hk2 : k ≠ "width") (hk3 : k ≠ "vertical-align")
    (hk4 : k ≠ "position") :
    lookupStyle (addHDW ctx html []).2 k = none := by
  unfold addHDW
  cases getHDW ctx html "force" "force" with
  | none => rfl
  | some hdw =>
    simp only
    rw [lookupStyle_setStyle_ne _ _ _ _ (Ne.symm hk4),
        lookupStyle_setStyle_ne _ _ _ _ (Ne.symm hk3),
        lookupStyle_setStyle_ne _ _ _ _ (Ne.symm hk2),
        lookupStyle_setStyle_ne _ _ _ _ (Ne.symm hk1)]
    rfl

/-! ## Claim theorems -/

/-- Claim C3: for every html tree and strings `use` and `force`, `getHDW`
returns the value of the tree's `data-mjx-hdw` attribute exactly when that
value is non-empty and the `htmlHDW` option equals `use` or equals `force`;
in every other case it returns `null`.  (The source performs only the read
`adaptor.getAttribute`, so in this purely functional embedding the html
tree is untouched by construction.) -/
theorem getHDW_spec (ctx : MixinCtx) (html : Html) (u f : String) :
    ∀ v : String,
      getHDW ctx html u f = some v ↔
        (getAttribute html "data-mjx-hdw" = some v ∧ v ≠ "" ∧
         (ctx.htmlHDW = u ∨ ctx.htmlHDW = f)) := by
  intro v
  unfold getHDW
  cases hA : getAttribute html "data-mjx-hdw" with
  | none => simp
  | some a =>
    by_cases hv : a ≠ "" ∧ (ctx.htmlHDW = u ∨ ctx.htmlHDW = f)
    · simp only [if_pos hv, Option.some.injEq]
      constructor
      · intro he; subst he; exact ⟨rfl, hv.1, hv.2⟩
      · intro he; exact he.1
    · simp only [if_neg hv]
      constructor
      · intro he; cases he
      · intro he
        obtain ⟨h1, h2, h3⟩ := he
        cases Option.some.inj h1
        exact absurd ⟨h2, h3⟩ hv

/-- Claim C6: whenever `htmlHDW` is not `'force'` or the tree has no
non-empty `data-mjx-hdw` attribute, `addHDW` returns its html argument
unchanged and the styles object unmodified. -/
theorem addHDW_noforce_id (ctx : MixinCtx) (html : Html) (styles : StyleList)
    (h : ctx.htmlHDW ≠ "force" ∨
         getAttribute html "data-mjx-hdw" = none ∨
         getAttribute html "data-mjx-hdw" = some "") :
    addHDW ctx html styles = (html, styles) := by
  have hnone : getHDW ctx html "force" "force" = none := by
    apply getHDW_none_of
    rcases h with h | h | h
    · exact Or.inr (Or.inr ⟨h, h⟩)
    · exact Or.inl h
    · exact Or.inr (Or.inl h)
  unfold addHDW
  rw [hnone]

/-- Witness for claim C6 at a concrete input: with `htmlHDW = 'use'`,
`addHDW` is the identity even though the attribute is present. -/
theorem addHDW_noforce_id_witness :
    ctxUse.htmlHDW ≠ "force" ∧ addHDW ctxUse htmlDemo [] = (htmlDemo, []) :=
  ⟨by decide, addHDW_noforce_id ctxUse htmlDemo [] (Or.inl (by decide))⟩

/-- Claim C5 (amended): `splitHDW` applies `length2em` to each of the first
three whitespace-separated components that are actually present, replacing
an empty component string by `'0'` before conversion; a position beyond the
number of components is not converted at all but is left as JavaScript
`undefined` (array destructuring past the end), not 0. -/
theorem splitHDW_spec (ctx : MixinCtx) (hdw : String) :
    (∀ i : ℕ, i < 3 → i < (split hdw).length →
        (splitHDW ctx hdw).nth i = ctx.length2em (zeroIfEmpty ((split hdw).getD i ""))) ∧
    (∀ i : ℕ, i < 3 → (split hdw).length ≤ i →
        (splitHDW ctx hdw).nth i = JSNum.undef) := by
  constructor
  · intro i h3 hlen
    have hkey := getD_map_lt (fun x => ctx.length2em (zeroIfEmpty x)) (split hdw) i hlen
    interval_cases i <;> simpa [splitHDW, UnknownBBox.nth] using hkey
  · intro i h3 hlen
    have hkey := getD_map_ge (fun x => ctx.length2em (zeroIfEmpty x)) (split hdw) i hlen
    interval_cases i <;> simpa [splitHDW, UnknownBBox.nth] using hkey

/-- Counterexample to claim C5 as stated: for the two-component input
`"1 2"`, the claim demands `w = length2em '0'` (i.e. 0), but `splitHDW`
leaves `w` as JavaScript `undefined`. -/
theorem splitHDW_missing_component_counterexample :
    (splitHDW ctxDemo "1 2").w = JSNum.undef ∧
    ctxDemo.length2em "0" = JSNum.num 0 ∧
    JSNum.undef ≠ JSNum.num 0 := by decide

/-- Witness for the amended claim C5 at concrete inputs: on `"1 2"` the
present component 0 is converted with `length2em` and the missing
component 2 is `undefined`. -/
theorem splitHDW_spec_witness :
    (0 : ℕ) < 3 ∧ 0 < (split "1 2").length ∧
    (splitHDW ctxDemo "1 2").nth 0 = ctxDemo.length2em (zeroIfEmpty ((split "1 2").getD 0 "")) ∧
    (2 : ℕ) < 3 ∧ (split "1 2").length ≤ 2 ∧
    (splitHDW ctxDemo "1 2").nth 2 = JSNum.undef :=
  ⟨by decide, by decide,
   (splitHDW_spec ctxDemo "1 2").1 0 (by decide) (by decide),
   by decide, by decide,
   (splitHDW_spec ctxDemo "1 2").2 2 (by decide) (by decide)⟩

/-- Claim C4: when `htmlHDW` is `'force'` and the tree carries a non-empty
`data-mjx-hdw` attribute parsing to `{h, d, w}`, `addHDW` sets
`styles.height` to `em(h + d)`, `styles.width` to `em(w)`,
`styles['vertical-align']` to `em(-d)`, `styles.position` to `'relative'`,
and returns the html wrapped in a new `mjx-html-holder` element. -/
theorem addHDW_force_spec (ctx : MixinCtx) (html : Html) (styles : StyleList) (v : String)
    (hopt : ctx.htmlHDW = "force")
    (hattr : getAttribute html "data-mjx-hdw" = some v) (hv : v ≠ "") :
    (addHDW ctx html styles).1 = Html.element "mjx-html-holder" {} [] [html] ∧
    lookupStyle (addHDW ctx html styles).2 "height"
      = some (ctx.em (jsAdd (splitHDW ctx v).h (splitHDW ctx v).d)) ∧
    lookupStyle (addHDW ctx html styles).2 "width"
      = some (ctx.em (splitHDW ctx v).w) ∧
    lookupStyle (addHDW ctx html styles).2 "vertical-align"
      = some (ctx.em (jsNeg (splitHDW ctx v).d)) ∧
    lookupStyle (addHDW ctx html styles).2 "position" = some "relative" := by
  have hget : getHDW ctx html "force" "force" = some v :=
    getHDW_some_of ctx html "force" "force" v hattr hv (Or.inl hopt)
  unfold addHDW
  rw [hget]
  refine ⟨rfl, ?_, ?_, ?_, ?_⟩
  · simp only
    rw [lookupStyle_setStyle_ne _ _ _ _ (by decide),
        lookupStyle_setStyle_ne _ _ _ _ (by decide),
        lookupStyle_setStyle_ne _ _ _ _ (by decide),
        lookupStyle_setStyle_self]
  · simp only
    rw [lookupStyle_setStyle_ne _ _ _ _ (by decide),
        lookupStyle_setStyle_ne _ _ _ _ (by decide),
        lookupStyle_setStyle_self]
  · simp only
    rw [lookupStyle_setStyle_ne _ _ _ _ (by decide),
        lookupStyle_setStyle_self]
  · simp only
    rw [lookupStyle_setStyle_self]

/-- Witness for claim C4 at a concrete input: with `htmlHDW = 'force'` and
the attribute `"1 2 3"`, the four styles are set and the tree is wrapped. -/
theorem addHDW_force_spec_witness :
    ctxDemo.htmlHDW = "force" ∧
    getAttribute htmlDemo "data-mjx-hdw" = some "1 2 3" ∧ ("1 2 3" : String) ≠ "" ∧
    (addHDW ctxDemo htmlDemo []).1 = Html.element "mjx-html-holder" {} [] [htmlDemo] ∧
    lookupStyle (addHDW ctxDemo htmlDemo []).2 "height" = some "Nem" ∧
    lookupStyle (addHDW ctxDemo htmlDemo []).2 "width" = some "Nem" ∧
    lookupStyle (addHDW ctxDemo htmlDemo []).2 "vertical-align" = some "Nem" ∧
    lookupStyle (addHDW ctxDemo htmlDemo []).2 "position" = some "relative" :=
  ⟨rfl, by decide, by decide,
   (addHDW_force_spec ctxDemo htmlDemo [] "1 2 3" rfl (by decide) (by decide)).1,
   ((addHDW_force_spec ctxDemo htmlDemo [] "1 2 3" rfl (by decide) (by decide)).2.1).trans (by decide),
   ((addHDW_force_spec ctxDemo htmlDemo [] "1 2 3" rfl (by decide) (by decide)).2.2.1).trans (by decide),
   ((addHDW_force_spec ctxDemo htmlDemo [] "1 2 3" rfl (by decide) (by decide)).2.2.2.1).trans (by decide),
   (addHDW_force_spec ctxDemo htmlDemo [] "1 2 3" rfl (by decide) (by decide)).2.2.2.2⟩

/-- Claim C1: `computeBBox` takes `h`, `d`, `w` from `splitHDW` of the
cached `data-mjx-hdw` attribute of the node's HTML exactly when that
attribute is present and non-empty and `htmlHDW` is `'use'` or `'force'`;
in every other case it takes them from `jax.measureXMLnode(this.getHTML())`. -/
theorem computeBBox_spec (ctx : MixinCtx) (st : WrapperState) (bbox : BBox) :
    (∀ v : String, getAttribute st.storedHTML "data-mjx-hdw" = some v → v ≠ "" →
        (ctx.htmlHDW = "use" ∨ ctx.htmlHDW = "force") →
        computeBBox ctx st bbox =
          { h := (splitHDW ctx v).h, d := (splitHDW ctx v).d, w := (splitHDW ctx v).w }) ∧
    ((getAttribute st.storedHTML "data-mjx-hdw" = none ∨
      getAttribute st.storedHTML "data-mjx-hdw" = some "" ∨
      (ctx.htmlHDW ≠ "use" ∧ ctx.htmlHDW ≠ "force")) →
      computeBBox ctx st bbox =
        { h := JSNum.num (ctx.measure (getHTML ctx st).1).h,
          d := JSNum.num (ctx.measure (getHTML ctx st).1).d,
          w := JSNum.num (ctx.measure (getHTML ctx st).1).w }) := by
  constructor
  · intro v hattr hv hopt
    have hget : getHDW ctx st.storedHTML "use" "force" = some v :=
      getHDW_some_of ctx st.storedHTML "use" "force" v hattr hv hopt
    unfold computeBBox
    rw [hget]
  · intro h
    have hget : getHDW ctx st.storedHTML "use" "force" = none :=
      getHDW_none_of ctx st.storedHTML "use" "force" h
    unfold computeBBox
    rw [hget]

/-- Witness for claim C1 at a concrete input: with `htmlHDW = 'force'` and
cached attribute `"1 2 3"`, the bounding box comes from `splitHDW`. -/
theorem computeBBox_spec_witness :
    getAttribute stDemo.storedHTML "data-mjx-hdw" = some "1 2 3" ∧
    ("1 2 3" : String) ≠ "" ∧
    (ctxDemo.htmlHDW = "use" ∨ ctxDemo.htmlHDW = "force") ∧
    computeBBox ctxDemo stDemo bboxDemo =
      { h := JSNum.num 1, d := JSNum.num 2, w := JSNum.num 3 } :=
  ⟨by decide, by decide, Or.inr rfl,
   ((computeBBox_spec ctxDemo stDemo bboxDemo).1 "1 2 3" (by decide) (by decide)
      (Or.inr rfl)).trans (by decide)⟩

/-- Claim C7: `getHTML` returns an `mjx-html` element whose styles carry a
`font-size` equal to `fixed(100 / metrics.scale, 1) ++ '%'` exactly when the
metrics scale differs from 1; at scale 1 no `font-size` style is present. -/
theorem getHTML_fontsize_spec (ctx : MixinCtx) (st : WrapperState) :
    ((getHTML ctx st).1).kindOf = "mjx-html" ∧
    lookupStyle ((getHTML ctx st).1).styleOf "font-size" =
      (if ctx.scale = 1 then none
       else some (ctx.fixed (100 / ctx.scale) 1 ++ "%")) := by
  constructor
  · rfl
  · show lookupStyle
      (setStyle
        (if ctx.scale ≠ 1 then
          setStyle (addHDW ctx (clone st.storedHTML) []).2 "font-size"
            (ctx.fixed (100 / ctx.scale) 1 ++ "%")
         else (addHDW ctx (clone st.storedHTML) []).2)
        "font-family" (fontFamilyValue ctx)) "font-size" = _
    rw [lookupStyle_setStyle_ne _ _ _ _ (by decide)]
    by_cases hs : ctx.scale = 1
    · rw [if_neg (by simpa using hs), if_pos hs]
      exact lookupStyle_addHDW_fresh ctx (clone st.storedHTML) "font-size"
        (by decide) (by decide) (by decide) (by decide)
    · rw [if_pos hs, if_neg hs]
      exact lookupStyle_setStyle_self _ _ _

/-- Claim C9: `getHTML` operates on a clone of the stored HTML; the tree
held by the underlying `HtmlNode` after the call is the one held before,
and the clone is an identical copy of it. -/
theorem getHTML_frame_spec (ctx : MixinCtx) (st : WrapperState) :
    ((getHTML ctx st).2).storedHTML = st.storedHTML ∧
    clone st.storedHTML = st.storedHTML :=
  ⟨rfl, clone_eq st.storedHTML⟩

/-- Claim C10: the mixin's overridden `getStyles`, `getScale` and
`getVariant` are no-ops: each returns `undefined` and leaves the wrapper
state (stored HTML and all base-class cache fields) unchanged. -/
theorem overrides_noop_spec (self : WrapperState) :
    getStyles self = (none, self) ∧
    getScale self = (none, self) ∧
    getVariant self = (none, self) :=
  ⟨rfl, rfl, rfl⟩

/-- Claim C2: the `MML` registry maps each class's kind to the class: for
every class of the registry literal, looking up its `kind` yields that
class; in particular the kinds of `MmlMi`, `MmlMo`, `MmlMfrac` and
`MmlMtable` are `mi`, `mo`, `mfrac`, `mtable`, and the `TextNode` and
`XMLNode` classes have entries under their kinds. -/
theorem MML_registry_spec :
    (∀ C : MmlNodeClass, lookupClass MML C.kind = some C) ∧
    MmlNodeClass.kind MmlNodeClass.MmlMi = "mi" ∧
    MmlNodeClass.kind MmlNodeClass.MmlMo = "mo" ∧
    MmlNodeClass.kind MmlNodeClass.MmlMfrac = "mfrac" ∧
    MmlNodeClass.kind MmlNodeClass.MmlMtable = "mtable" ∧
    lookupClass MML MmlNodeClass.TextNode.kind = some MmlNodeClass.TextNode ∧
    lookupClass MML MmlNodeClass.XMLNode.kind = some MmlNodeClass.XMLNode := by
  refine ⟨?_, rfl, rfl, rfl, rfl, by decide, by decide⟩
  intro C
  cases C <;> decide

/-- Claim C8: `HandlesDocument` is total and boolean-valued: a string input
is parsed first (a parse failure is caught, leaving the string), and the
result is `true` exactly when the input — or, for strings, its parsed
document — is an instance of the document constructor, of `HTMLElement`,
or of `DocumentFragment`; in every other case, including a string whose
parse throws, it is `false`. -/
theorem HandlesDocument_spec (parse : String → Option DomValue) (doc : DomValue) :
    (HandlesDocument parse doc = true ↔
      (isDocumentInstance doc = true ∨ isHTMLElementInstance doc = true ∨
       isFragmentInstance doc = true ∨
       ∃ s r, doc = DomValue.str s ∧ parse s = some r ∧
         (isDocumentInstance r = true ∨ isHTMLElementInstance r = true ∨
          isFragmentInstance r = true))) ∧
    (∀ s : String, doc = DomValue.str s → parse s = none →
      HandlesDocument parse doc = false) := by
  constructor
  · cases doc with
    | str s =>
      cases hp : parse s with
      | none =>
        simp [HandlesDocument, hp, isDocumentInstance, isHTMLElementInstance,
              isFragmentInstance]
      | some r =>
        simp only [HandlesDocument, hp]
        cases r <;>
          simp [isDocumentInstance, isHTMLElementInstance, isFragmentInstance, hp]
    | document => simp [HandlesDocument, isDocumentInstance]
    | htmlElement => simp [HandlesDocument, isHTMLElementInstance]
    | fragment => simp [HandlesDocument, isFragmentInstance]
    | other =>
      simp [HandlesDocument, isDocumentInstance, isHTMLElementInstance,
            isFragmentInstance]
  · intro s hdoc hp
    subst hdoc
    simp [HandlesDocument, hp, isDocumentInstance, isHTMLElementInstance,
          isFragmentInstance]

/-- Witness for claim C8 at concrete inputs: a parse failure is caught and
yields `false`, while a string parsing to a document yields `true`. -/
theorem HandlesDocument_spec_witness :
    HandlesDocument parseDemo (DomValue.str "<p>") = true ∧
    parseDemo "bad" = none ∧
    HandlesDocument parseDemo (DomValue.str "bad") = false :=
  ⟨by decide, by decide,
   (HandlesDocument_spec parseDemo (DomValue.str "bad")).2 "bad" rfl (by decide)⟩
